import Mathlib

/-
Verification development for the arcaflow fio plugin.

Shallow embedding of the two source files that carry behaviour:
  - arcaflow_plugin_fio/fio_schema.py   (job parameter schema and the INI
    config serializer FioInput.write_jobs_to_file)
  - arcaflow_plugin_fio/fio_plugin.py   (split_json_and_errors and run)

Python strings are Lean Strings, Python ints are Lean Int, Python None /
values are Option, Python exceptions are modelled with Except.  The stdlib
functions the code calls (str.splitlines, str.join, json.loads,
configparser section writing, Path.unlink) are modelled faithfully below.
-/

set_option maxHeartbeats 1000000

namespace FioPlugin

/-! ## Enumerations from fio_schema.py -/

/-- Embedding of the KbBase IntEnum: KB = 1000, KIB = 1024. -/
inductive KbBase where
  | KB
  | KIB
deriving DecidableEq, Repr

/-- Python int(value) for a KbBase member. -/
def KbBase.toInt : KbBase → Int
  | .KB => 1000
  | .KIB => 1024

/-- Embedding of the IoPattern str enum. -/
inductive IoPattern where
  | read
  | write
  | randread
  | randwrite
  | rw
  | readwrite
  | randrw
deriving DecidableEq, Repr

/-- Python str(value) for an IoPattern member (its declared value). -/
def IoPattern.value : IoPattern → String
  | .read => "read"
  | .write => "write"
  | .randread => "randread"
  | .randwrite => "randwrite"
  | .rw => "rw"
  | .readwrite => "readwrite"
  | .randrw => "randrw"

/-- Embedding of the RateProcess str enum. -/
inductive RateProcess where
  | linear
  | poisson
deriving DecidableEq, Repr

/-- Python str(value) for a RateProcess member. -/
def RateProcess.value : RateProcess → String
  | .linear => "linear"
  | .poisson => "poisson"

/-- Embedding of the IoSubmitMode str enum. -/
inductive IoSubmitMode where
  | inline
  | offload
deriving DecidableEq, Repr

/-- Python str(value) for an IoSubmitMode member. -/
def IoSubmitMode.value : IoSubmitMode → String
  | .inline => "inline"
  | .offload => "offload"

/-- Embedding of the IoEngine str enum. -/
inductive IoEngine where
  | sync
  | psync
  | libaio
  | windowsaio
deriving DecidableEq, Repr

/-- Python str(value) for an IoEngine member. -/
def IoEngine.value : IoEngine → String
  | .sync => "sync"
  | .psync => "psync"
  | .libaio => "libaio"
  | .windowsaio => "windowsaio"

/-! ## The JobParams dataclass (fio_schema.py lines 100-454)

Every field is Optional with default None; the field order below is the
dataclass declaration order, which is the order asdict() iterates. -/

/-- Embedding of the JobParams dataclass: 29 optional fields in
declaration order. -/
structure JobParams where
  kb_base : Option KbBase
  loops : Option Int
  numjobs : Option Int
  runtime : Option String
  time_based : Option Bool
  startdelay : Option String
  ramp_time : Option String
  directory : Option String
  filename : Option String
  nrfiles : Option Int
  openfiles : Option Int
  create_on_open : Option Bool
  pre_read : Option Bool
  unlink : Option Bool
  unlink_each_loop : Option Bool
  direct : Option Bool
  buffered : Option Bool
  readwrite : Option IoPattern
  blocksize : Option String
  blocksize_range : Option String
  size : Option String
  io_size : Option String
  filesize : Option String
  ioengine : Option IoEngine
  iodepth : Option Int
  io_submit_mode : Option IoSubmitMode
  rate_iops : Option String
  rate_process : Option RateProcess
  stonewall : Option Bool
deriving DecidableEq, Repr

/-- The JobParams value with every field at its default None. -/
def JobParams.allNone : JobParams :=
  ⟨none, none, none, none, none, none, none, none, none, none,
   none, none, none, none, none, none, none, none, none, none,
   none, none, none, none, none, none, none, none, none⟩

/-- A Python value as it appears in the dict produced by
asdict(job.params): None, a bool, an int, a str, or an enum member
(str-valued or the int-valued KbBase). -/
inductive PyVal where
  | pyNone
  | pyBool (b : Bool)
  | pyInt (n : Int)
  | pyStr (s : String)
  | pyKb (k : KbBase)
  | pyPat (x : IoPattern)
  | pyEng (x : IoEngine)
  | pySub (x : IoSubmitMode)
  | pyRate (x : RateProcess)
deriving DecidableEq, Repr

/-- Lift an Option into a PyVal through a constructor. -/
def optVal {β : Type} (f : β → PyVal) : Option β → PyVal
  | none => PyVal.pyNone
  | some x => f x

/-- Embedding of asdict(job.params).items(): the (key, value) pairs in
dataclass field order. -/
def JobParams.asdict (p : JobParams) : List (String × PyVal) :=
  [("kb_base", optVal PyVal.pyKb p.kb_base),
   ("loops", optVal PyVal.pyInt p.loops),
   ("numjobs", optVal PyVal.pyInt p.numjobs),
   ("runtime", optVal PyVal.pyStr p.runtime),
   ("time_based", optVal PyVal.pyBool p.time_based),
   ("startdelay", optVal PyVal.pyStr p.startdelay),
   ("ramp_time", optVal PyVal.pyStr p.ramp_time),
   ("directory", optVal PyVal.pyStr p.directory),
   ("filename", optVal PyVal.pyStr p.filename),
   ("nrfiles", optVal PyVal.pyInt p.nrfiles),
   ("openfiles", optVal PyVal.pyInt p.openfiles),
   ("create_on_open", optVal PyVal.pyBool p.create_on_open),
   ("pre_read", optVal PyVal.pyBool p.pre_read),
   ("unlink", optVal PyVal.pyBool p.unlink),
   ("unlink_each_loop", optVal PyVal.pyBool p.unlink_each_loop),
   ("direct", optVal PyVal.pyBool p.direct),
   ("buffered", optVal PyVal.pyBool p.buffered),
   ("readwrite", optVal PyVal.pyPat p.readwrite),
   ("blocksize", optVal PyVal.pyStr p.blocksize),
   ("blocksize_range", optVal PyVal.pyStr p.blocksize_range),
   ("size", optVal PyVal.pyStr p.size),
   ("io_size", optVal PyVal.pyStr p.io_size),
   ("filesize", optVal PyVal.pyStr p.filesize),
   ("ioengine", optVal PyVal.pyEng p.ioengine),
   ("iodepth", optVal PyVal.pyInt p.iodepth),
   ("io_submit_mode", optVal PyVal.pySub p.io_submit_mode),
   ("rate_iops", optVal PyVal.pyStr p.rate_iops),
   ("rate_process", optVal PyVal.pyRate p.rate_process),
   ("stonewall", optVal PyVal.pyBool p.stonewall)]

/-- Python isinstance(value, (bool, int)): true for bool, int and the
int-valued enum KbBase (IntEnum members are ints). -/
def PyVal.isBoolOrInt : PyVal → Bool
  | .pyBool _ => true
  | .pyInt _ => true
  | .pyKb _ => true
  | _ => false

/-- Python str(int(value)) on the int-like values (the branch taken when
isinstance(value, (bool, int))). -/
def PyVal.intStr : PyVal → String
  | .pyBool b => toString (if b then (1 : Int) else 0)
  | .pyInt n => toString n
  | .pyKb k => toString k.toInt
  | _ => ""

/-- Python str(value) on the remaining values (the else branch). -/
def PyVal.strOf : PyVal → String
  | .pyStr s => s
  | .pyPat x => x.value
  | .pyEng x => x.value
  | .pySub x => x.value
  | .pyRate x => x.value
  | .pyBool b => if b then "True" else "False"
  | .pyInt n => toString n
  | .pyKb k => toString k.toInt
  | .pyNone => "None"

/-- The string written for one non-None parameter value: str(int(value))
for bool/int values, str(value) otherwise (write_jobs_to_file lines
491-497). -/
def renderVal (v : PyVal) : String :=
  if v.isBoolOrInt then v.intStr else v.strOf

/-- The (key, value) pairs the inner loop of write_jobs_to_file attempts
to store for one job: the non-None entries of asdict(job.params), in
field order, with values rendered by renderVal.  The store itself, with
the interpolation check that can raise, is cfgSet below. -/
def renderParams (p : JobParams) : List (String × String) :=
  p.asdict.filterMap fun kv =>
    match kv.2 with
    | PyVal.pyNone => none
    | v => some (kv.1, renderVal v)

/-! ## FioJob / FioInput and the config file text -/

/-- Embedding of the FioJob dataclass. -/
structure FioJob where
  name : String
  params : JobParams
deriving DecidableEq, Repr

/-- Embedding of the FioInput dataclass: a job list and the optional
cleanup flag (default False; unserialized input may carry None). -/
structure FioInput where
  jobs : List FioJob
  cleanup : Option Bool
deriving DecidableEq, Repr

/-- Python truthiness of the Optional[bool] cleanup flag as tested by
`if params.cleanup:` (None and False are falsy). -/
def pyTruthy : Option Bool → Bool
  | none => false
  | some b => b

/-- The ordinary (non-default) sections of the configparser state: each a
section name with its option (key, value) pairs in insertion order. -/
abbrev Sections : Type := List (String × List (String × String))

/-! ### The interpolation syntax check of BasicInterpolation.before_set

ConfigParser.set runs before_set on every non-empty value: it deletes the
escaped percent pairs, deletes every well-formed interpolation reference,
and raises ValueError when a percent sign remains. -/

/-- Step one of the check, value.replace of a double percent by nothing:
non-overlapping pairs are removed scanning left to right. -/
def dropDoublePct : List Char → List Char
  | [] => []
  | [c] => [c]
  | c :: c2 :: rest =>
    if c == '%' && c2 == '%' then dropDoublePct rest
    else c :: dropDoublePct (c2 :: rest)

/-- One attempted match of the interpolation reference pattern at the
head of the input — a percent, an opening parenthesis, one or more
characters other than a closing parenthesis, the closing parenthesis and
the letter s — returning the input after the match. -/
def keycreMatch (cs : List Char) : Option (List Char) :=
  match cs with
  | c1 :: c2 :: rest =>
    if c1 == '%' && c2 == '(' then
      if (rest.takeWhile (fun c => c != ')')).isEmpty then none
      else
        match rest.dropWhile (fun c => c != ')') with
        | c3 :: c4 :: rest2 =>
          if c3 == ')' && c4 == 's' then some rest2 else none
        | _ => none
    else none
  | _ => none

/-- Step two of the check, the regex sub deleting every non-overlapping
interpolation reference, scanning left to right (fuel is the remaining
length). -/
def dropKeycre : Nat → List Char → List Char
  | 0, _ => []
  | _, [] => []
  | Nat.succ fuel, c :: rest =>
    match keycreMatch (c :: rest) with
    | some rest2 => dropKeycre fuel rest2
    | none => c :: dropKeycre fuel rest

/-- Whether BasicInterpolation.before_set accepts the value: after both
deletions no percent sign remains. -/
def interpolationSyntaxOk (v : String) : Bool :=
  let tmp1 := dropDoublePct v.data
  !((dropKeycre tmp1.length tmp1).contains '%')

/-- The exception write_jobs_to_file can raise: the ValueError of
BasicInterpolation.before_set, recorded with the offending value (the
exact Python message formatting is not reproduced). -/
inductive CfgError where
  | interpolationSyntaxError (value : String)
deriving DecidableEq, Repr

/-- The configparser state: the defaults store (fed through the DEFAULT
section name, or an empty section name) and the ordinary sections in
insertion order. -/
structure CfgState where
  defaults : List (String × String)
  sections : Sections
deriving DecidableEq, Repr

/-- A Python dict store d at k set to v: an existing key is updated in
place, a new key is appended. -/
def setKeyVal (kvs : List (String × String)) (k v : String) :
    List (String × String) :=
  if kvs.any (fun p => p.1 == k) then
    kvs.map fun p => if p.1 == k then (k, v) else p
  else kvs ++ [(k, v)]

/-- ConfigParser.__setitem__ with an empty dict, the statement
cfg at job.name set to an empty dict: the default section name DEFAULT
clears the defaults store; an existing ordinary section is cleared in
place, keeping its position; otherwise a new empty section is appended
(read_dict swallows the ValueError add_section raises for DEFAULT and
the DuplicateSectionError for an existing name). -/
def cfgSetItem (st : CfgState) (name : String) : CfgState :=
  if name == "DEFAULT" then
    ⟨[], st.sections⟩
  else if st.sections.any (fun s => s.1 == name) then
    ⟨st.defaults, st.sections.map fun s => if s.1 == name then (name, []) else s⟩
  else
    ⟨st.defaults, st.sections ++ [(name, [])]⟩

/-- The store of RawConfigParser.set after the value check: a section
name that is DEFAULT or empty selects the defaults store (the source's
`if not section or section == self.default_section`), any other name
selects that section's option dict — the preceding cfgSetItem guarantees
the section exists. -/
def cfgSetVal (st : CfgState) (name k v : String) : CfgState :=
  if name == "DEFAULT" || name == "" then
    ⟨setKeyVal st.defaults k v, st.sections⟩
  else
    ⟨st.defaults,
      st.sections.map fun s => if s.1 == name then (name, setKeyVal s.2 k v) else s⟩

/-- The full store cfg at job.name at key set to value: ConfigParser.set
runs BasicInterpolation.before_set on every non-empty value and raises
ValueError on a stray percent sign, then stores the value. -/
def cfgSet (st : CfgState) (name k v : String) : Except CfgError CfgState :=
  if v != "" && !(interpolationSyntaxOk v) then
    Except.error (CfgError.interpolationSyntaxError v)
  else Except.ok (cfgSetVal st name k v)

/-- One iteration of the outer loop of write_jobs_to_file: clear or
create the job's section, then store every rendered non-None parameter
in field order, stopping at the first value the check rejects. -/
def storeJob (st : CfgState) (job : FioJob) : Except CfgError CfgState :=
  (renderParams job.params).foldlM
    (fun st kv => cfgSet st job.name kv.1 kv.2) (cfgSetItem st job.name)

/-- The configparser state after the loop over self.jobs, or the first
ValueError raised. -/
def buildCfg (jobs : List FioJob) : Except CfgError CfgState :=
  jobs.foldlM storeJob ⟨[], []⟩

/-- The value formatting of ConfigParser write: every newline in a stored
value is followed by a tab, the continuation-line convention. -/
def tabAfterNewlines : List Char → List Char
  | [] => []
  | c :: rest =>
    if c == '\n' then c :: '\t' :: tabAfterNewlines rest
    else c :: tabAfterNewlines rest

/-- The text one section contributes with space_around_delimiters=False:
the bracketed header line, one key=value line per stored option (values
run through tabAfterNewlines), then a blank line. -/
def sectionText (sec : String × List (String × String)) : String :=
  "[" ++ sec.1 ++ "]\n" ++
    String.join (sec.2.map fun kv =>
      kv.1 ++ "=" ++ String.mk (tabAfterNewlines kv.2.data) ++ "\n") ++ "\n"

/-- ConfigParser.write: when the defaults store is non-empty it is
written first as a DEFAULT section, then every ordinary section in
insertion order. -/
def cfgWriteText (st : CfgState) : String :=
  (if st.defaults.isEmpty then "" else sectionText ("DEFAULT", st.defaults)) ++
    String.join (st.sections.map sectionText)

/-- Embedding of FioInput.write_jobs_to_file (fio_schema.py lines
487-502): the full text body written to the configuration file, or the
ValueError the store raises on an ill-formed value. -/
def FioInput.write_jobs_to_file (inp : FioInput) : Except CfgError String :=
  (buildCfg inp.jobs).map cfgWriteText

/-! ### Characterization of the success path

The following functions are not a second serializer: they name the value
storeJob provably computes when every check passes, and are related to
storeJob by the lemmas further below. -/

/-- The effect of one job on the state when every store succeeds. -/
def storeJobPure (st : CfgState) (job : FioJob) : CfgState :=
  (renderParams job.params).foldl
    (fun st kv => cfgSetVal st job.name kv.1 kv.2) (cfgSetItem st job.name)

/-- The option dict a job's rendered parameters produce when stored into
a fresh dict. -/
def storedParams (p : JobParams) : List (String × String) :=
  (renderParams p).foldl (fun kvs kv => setKeyVal kvs kv.1 kv.2) []

/-- What ends up inside a job's own section: an empty-named job's values
are routed to the defaults store, so its section stays empty; any other
job's section receives its stored parameters. -/
def jobKvs (job : FioJob) : List (String × String) :=
  if job.name == "" then [] else storedParams job.params

/-- The section-list update shape the per-job stores amount to: every
section of the given name is replaced (in position) when one exists,
otherwise a new section is appended. -/
def setSection (secs : Sections) (n : String) (kvs : List (String × String)) :
    Sections :=
  if secs.any (fun s => s.1 == n) then
    secs.map fun s => if s.1 == n then (n, kvs) else s
  else
    secs ++ [(n, kvs)]

/-- The ordinary-section list the loop provably produces from the jobs it
is given (to be applied to the non-DEFAULT jobs). -/
def buildSections (jobs : List FioJob) : Sections :=
  jobs.foldl (fun secs job => setSection secs job.name (jobKvs job)) []

/-- The pointwise update of every section of a given name, the shape both
cfgSetItem and cfgSetVal apply to the section list. -/
def updOne (name : String)
    (f : List (String × String) → List (String × String)) :
    String × List (String × String) → String × List (String × String) :=
  fun s => if s.1 == name then (name, f s.2) else s

/-! ## Python str.splitlines -/

/-- The line-break characters recognised by Python str.splitlines. -/
def isLineBreak (c : Char) : Bool :=
  c == '\n' || c == '\r' || c == '\x0b' || c == '\x0c' ||
  c == '\x1c' || c == '\x1d' || c == '\x1e' || c == '\x85' ||
  c == '\u2028' || c == '\u2029'

/-- Worker for str.splitlines.  skip is true directly after a carriage
return, in which case one following newline belongs to the same (already
emitted) line break; acc holds the current line's characters reversed. -/
def splitlinesAux : Bool → List Char → List Char → List String
  | _, [], acc => if acc.isEmpty then [] else [String.mk acc.reverse]
  | skip, c :: rest, acc =>
    if skip && c == '\n' then
      splitlinesAux false rest acc
    else if isLineBreak c then
      String.mk acc.reverse :: splitlinesAux (c == '\r') rest []
    else
      splitlinesAux false rest (c :: acc)

/-- Embedding of Python fio_output.splitlines(): split at every
line-break character, treating a carriage return plus newline as one
break, with no trailing empty line for a trailing terminator. -/
def pySplitlines (s : String) : List String :=
  splitlinesAux false s.data []

/-! ## Python json.loads

Model of the stdlib json.loads used by split_json_and_errors: optional
whitespace, one JSON value (with Python's NaN/Infinity extensions), then
optional whitespace and end of input — anything left over is the "Extra
data" error, modelled as none.  Number values keep their source lexeme; a
lone surrogate escape, which a Lean Char cannot carry, degrades to NUL. -/

/-- A parsed JSON value. -/
inductive JsonVal where
  | null
  | bool (b : Bool)
  | num (lexeme : String)
  | str (s : String)
  | arr (xs : List JsonVal)
  | obj (kvs : List (String × JsonVal))

/-- The JSON whitespace characters of the decoder. -/
def jsonWs (c : Char) : Bool :=
  c == ' ' || c == '\t' || c == '\n' || c == '\r'

/-- Drop leading JSON whitespace. -/
def skipWs (cs : List Char) : List Char :=
  cs.dropWhile jsonWs

/-- Numeric value of one hexadecimal digit, if the character is one
(0-9, a-f or A-F by code point). -/
def hexVal (c : Char) : Option Nat :=
  let d := c.toNat
  if 48 ≤ d ∧ d ≤ 57 then some (d - 48)
  else if 97 ≤ d ∧ d ≤ 102 then some (d - 87)
  else if 65 ≤ d ∧ d ≤ 70 then some (d - 55)
  else none

/-- Parse exactly four hex digits into a code unit. -/
def parseHex4 : List Char → Option (Nat × List Char)
  | c1 :: c2 :: c3 :: c4 :: rest =>
    match hexVal c1, hexVal c2, hexVal c3, hexVal c4 with
    | some h1, some h2, some h3, some h4 =>
      some (((h1 * 16 + h2) * 16 + h3) * 16 + h4, rest)
    | _, _, _, _ => none
  | _ => none

/-- The character produced for one backslash-u escape group, merging a
high surrogate with an immediately following low-surrogate escape the way
py_scanstring does.  Returns the character and the rest of the input. -/
def escapedUnicode (code : Nat) (rest : List Char) : Char × List Char :=
  if 0xD800 ≤ code && code ≤ 0xDBFF &&
      rest.head? == some '\\' && (rest.drop 1).head? == some 'u' then
    match parseHex4 (rest.drop 2) with
    | some (code2, rest2) =>
      if 0xDC00 ≤ code2 && code2 ≤ 0xDFFF then
        (Char.ofNat (65536 + 1024 * (code - 55296) + (code2 - 56320)), rest2)
      else (Char.ofNat code, rest)
    | none => (Char.ofNat code, rest)
  else (Char.ofNat code, rest)

/-- The character denoted by one single-character escape of the decoder's
BACKSLASH table, when the escape is legal. -/
def escapeChar (c : Char) : Option Char :=
  match c with
  | '"' => some '"'
  | '\\' => some '\\'
  | '/' => some '/'
  | 'b' => some (Char.ofNat 8)
  | 'f' => some (Char.ofNat 12)
  | 'n' => some '\n'
  | 'r' => some (Char.ofNat 13)
  | 't' => some '\t'
  | _ => none

/-- Scan a JSON string body (after the opening quote): ordinary
characters until the closing quote, escapes via escapeChar and
backslash-u groups, unescaped control characters rejected (strict
mode). -/
def parseJStr : Nat → List Char → List Char → Option (String × List Char)
  | 0, _, _ => none
  | _, [], _ => none
  | Nat.succ fuel, c :: rest, acc =>
    if c == '"' then some (String.mk acc.reverse, rest)
    else if c == '\\' then
      match rest with
      | [] => none
      | e :: rest2 =>
        if e == 'u' then
          match parseHex4 rest2 with
          | some (code, rest3) =>
            let cr := escapedUnicode code rest3
            parseJStr fuel cr.2 (cr.1 :: acc)
          | none => none
        else
          match escapeChar e with
          | some ec => parseJStr fuel rest2 (ec :: acc)
          | none => none
    else if c.toNat < 0x20 then none
    else parseJStr fuel rest (c :: acc)

/-- Parse the JSON number grammar -?(0|[1-9][0-9]*)(.[0-9]+)?([eE][+-]?[0-9]+)?
returning the matched lexeme. -/
def parseNumber (cs : List Char) : Option (String × List Char) :=
  let sign : List Char × List Char :=
    match cs with
    | c :: rest => if c == '-' then ([c], rest) else ([], cs)
    | [] => ([], cs)
  match sign.2 with
  | [] => none
  | d :: rest =>
    if d == '0' then
      let intPart := sign.1 ++ [d]
      let fracRest := parseFrac rest
      match fracRest with
      | some (fr, rest2) =>
        match parseExp rest2 with
        | some (ex, rest3) => some (String.mk (intPart ++ fr ++ ex), rest3)
        | none => some (String.mk (intPart ++ fr), rest2)
      | none => none
    else if d.isDigit then
      let more := rest.takeWhile Char.isDigit
      let rest1 := rest.dropWhile Char.isDigit
      let intPart := sign.1 ++ [d] ++ more
      match parseFrac rest1 with
      | some (fr, rest2) =>
        match parseExp rest2 with
        | some (ex, rest3) => some (String.mk (intPart ++ fr ++ ex), rest3)
        | none => some (String.mk (intPart ++ fr), rest2)
      | none => none
    else none
where
  /-- Optional fraction part; none is returned only on a malformed
  fraction (a dot with no digit). -/
  parseFrac (cs : List Char) : Option (List Char × List Char) :=
    match cs with
    | c :: rest =>
      if c == '.' then
        match rest with
        | d :: _ =>
          if d.isDigit then
            some (c :: rest.takeWhile Char.isDigit, rest.dropWhile Char.isDigit)
          else some ([], cs)
        | [] => some ([], cs)
      else some ([], cs)
    | [] => some ([], cs)
  /-- Optional exponent part; a bare e with no digits does not match the
  regex, so the exponent group is simply not consumed then. -/
  parseExp (cs : List Char) : Option (List Char × List Char) :=
    match cs with
    | c :: rest =>
      if c == 'e' || c == 'E' then
        match rest with
        | s :: rest2 =>
          if s == '+' || s == '-' then
            match rest2 with
            | d :: _ =>
              if d.isDigit then
                some (c :: s :: rest2.takeWhile Char.isDigit,
                      rest2.dropWhile Char.isDigit)
              else some ([], cs)
            | [] => some ([], cs)
          else if s.isDigit then
            some (c :: rest.takeWhile Char.isDigit, rest.dropWhile Char.isDigit)
          else some ([], cs)
        | [] => some ([], cs)
      else some ([], cs)
    | [] => some ([], cs)

mutual

/-- Scan one JSON value starting at a non-space character, in the
scanner's dispatch order: string, object, array, null, true, false,
number, NaN, Infinity, -Infinity. -/
def parseValue : Nat → List Char → Option (JsonVal × List Char)
  | 0, _ => none
  | Nat.succ fuel, cs =>
    match cs with
    | [] => none
    | c :: rest =>
      if c == '"' then
        match parseJStr (rest.length + 1) rest [] with
        | some (s, rest2) => some (JsonVal.str s, rest2)
        | none => none
      else if c == '\x7b' then
        parseObj fuel rest
      else if c == '[' then
        parseArr fuel rest
      else if ("null".data).isPrefixOf cs then some (JsonVal.null, cs.drop 4)
      else if ("true".data).isPrefixOf cs then some (JsonVal.bool true, cs.drop 4)
      else if ("false".data).isPrefixOf cs then some (JsonVal.bool false, cs.drop 5)
      else
        match parseNumber cs with
        | some (lex, rest2) => some (JsonVal.num lex, rest2)
        | none =>
          if ("NaN".data).isPrefixOf cs then some (JsonVal.num "NaN", cs.drop 3)
          else if ("Infinity".data).isPrefixOf cs then
            some (JsonVal.num "Infinity", cs.drop 8)
          else if ("-Infinity".data).isPrefixOf cs then
            some (JsonVal.num "-Infinity", cs.drop 9)
          else none

/-- Scan an object after the opening brace. -/
def parseObj : Nat → List Char → Option (JsonVal × List Char)
  | 0, _ => none
  | Nat.succ fuel, cs =>
    let cs := skipWs cs
    match cs with
    | [] => none
    | c :: rest =>
      if c == '\x7d' then some (JsonVal.obj [], rest)
      else if c == '"' then
        parseMembers fuel cs []
      else none

/-- Scan the members of a non-empty object, positioned at the opening
quote of the next key. -/
def parseMembers : Nat → List Char → List (String × JsonVal) →
    Option (JsonVal × List Char)
  | 0, _, _ => none
  | Nat.succ fuel, cs, acc =>
    match cs with
    | c :: rest =>
      if c == '"' then
        match parseJStr (rest.length + 1) rest [] with
        | some (key, rest2) =>
          match skipWs rest2 with
          | colon :: rest3 =>
            if colon == ':' then
              match parseValue fuel (skipWs rest3) with
              | some (v, rest4) =>
                match skipWs rest4 with
                | sep :: rest5 =>
                  if sep == ',' then
                    parseMembers fuel (skipWs rest5) (acc ++ [(key, v)])
                  else if sep == '\x7d' then
                    some (JsonVal.obj (acc ++ [(key, v)]), rest5)
                  else none
                | [] => none
              | none => none
            else none
          | [] => none
        | none => none
      else none
    | [] => none

/-- Scan an array after the opening bracket. -/
def parseArr : Nat → List Char → Option (JsonVal × List Char)
  | 0, _ => none
  | Nat.succ fuel, cs =>
    match skipWs cs with
    | c :: rest =>
      if c == ']' then some (JsonVal.arr [], rest)
      else parseElems fuel (skipWs cs) []
    | [] => none

/-- Scan the elements of a non-empty array, positioned at the first
non-space character of the next element. -/
def parseElems : Nat → List Char → List JsonVal → Option (JsonVal × List Char)
  | 0, _, _ => none
  | Nat.succ fuel, cs, acc =>
    match parseValue fuel cs with
    | some (v, rest) =>
      match skipWs rest with
      | sep :: rest2 =>
        if sep == ',' then parseElems fuel (skipWs rest2) (acc ++ [v])
        else if sep == ']' then some (JsonVal.arr (acc ++ [v]), rest2)
        else none
      | [] => none
    | none => none

end

/-- Embedding of json.loads: leading whitespace, one value, trailing
whitespace, end of input; any leftover input is the Extra data error. -/
def jsonLoads (s : String) : Option JsonVal :=
  let cs := skipWs s.data
  match parseValue (2 * cs.length + 4) cs with
  | some (v, rest) => if (skipWs rest).isEmpty then some v else none
  | none => none

/-! ## split_json_and_errors (fio_plugin.py lines 20-34) -/

/-- The Python exceptions the embedded code can raise: IndexError from
lines[i] past the end, UnboundLocalError from returning json_data when no
iteration assigned it, and a schema validation error raised by
fio_output_schema.unserialize. -/
inductive PyExc where
  | indexError
  | unboundLocal
  | validationError (msg : String)
deriving DecidableEq, Repr

/-- One pass of the loop `for i in range(len(fio_output))`: try
json.loads on the newline-join of lines[i:]; on success return the pair
(break plus return); on failure append lines[i] and a newline to
error_data — raising IndexError when i is past the end of lines — and
continue.  When the range is exhausted the final return reads the never
assigned json_data, an UnboundLocalError. -/
def splitLoop (lines : List String) : Nat → Nat → String →
    Except PyExc (JsonVal × String)
  | 0, _, _ => Except.error PyExc.unboundLocal
  | Nat.succ fuel, i, errData =>
    match jsonLoads (String.intercalate "\n" (lines.drop i)) with
    | some j => Except.ok (j, errData)
    | none =>
      match lines[i]? with
      | some li => splitLoop lines fuel (i + 1) (errData ++ li ++ "\n")
      | none => Except.error PyExc.indexError

/-- Embedding of split_json_and_errors: splitlines the captured text,
then scan candidate start lines; note the loop bound is
range(len(fio_output)) — the character count of the input. -/
def split_json_and_errors (fio_output : String) :
    Except PyExc (JsonVal × String) :=
  splitLoop (pySplitlines fio_output) fio_output.length 0 ""

/-! ## The run step (fio_plugin.py lines 43-92) -/

/-- Embedding of the FioErrorOutput dataclass. -/
structure FioErrorOutput where
  error : String
deriving DecidableEq, Repr

/-- The value component of run's return pair: the success record or the
error record of the declared output union. -/
inductive RunOutput (α : Type) where
  | success (out : α)
  | failure (out : FioErrorOutput)

/-- The outcome of the subprocess.check_output call, which is external to
this code: a zero exit with the captured combined stdout/stderr text, a
CalledProcessError carrying the exit code and captured output, or a
FileNotFoundError whose filename names the missing executable. -/
inductive SubprocOutcome where
  | ok (output : String)
  | calledProcessError (returncode : Int) (output : String)
  | fileNotFound (filename : String)

/-- The external collaborators of one run invocation: the subprocess
outcome, the working-directory contents once the subprocess step is over
(the external fio binary creates its own artifacts there), the host
schema's fio_output_schema.unserialize, and the text format_exc() would
produce for the FileNotFoundError. -/
structure RunEnv (α : Type) where
  outcome : SubprocOutcome
  dirAfterSub : List String
  unser : JsonVal → Except String α
  tracebackText : String

/-- Path.unlink(missing_ok=True) on a directory modelled as the list of
names of existing files: removes the name, without error when absent. -/
def pyUnlink (name : String) (dir : List String) : List String :=
  dir.filter fun f => f != name

/-- The working-directory contents when control reaches the finally
block: write_jobs_to_file has created fio-input-tmp.fio, and if the
subprocess step ran (zero or non-zero exit) the directory is whatever
that external step left behind. -/
def runBodyDir {α : Type} (env : RunEnv α) (dir0 : List String) : List String :=
  match env.outcome with
  | SubprocOutcome.fileNotFound _ => "fio-input-tmp.fio" :: dir0
  | _ => env.dirAfterSub

/-- The fixed message of the missing-fio branch. -/
def missingFioMsg : String :=
  "missing fio executable, please install fio package"

/-- The result component of run: the try body with its two except
clauses.  A zero exit feeds the captured output to split_json_and_errors
and then to unserialize; both can raise, and neither exception type is
caught.  FileNotFoundError is classified on exc.filename == "fio".
CalledProcessError re-runs split_json_and_errors on err.output (which can
itself raise an uncaught IndexError) and formats err.cmd[0] (the literal
"fio"), err.returncode and the diagnostics into the error message. -/
def runResult {α : Type} (env : RunEnv α) :
    Except PyExc (String × RunOutput α) :=
  match env.outcome with
  | SubprocOutcome.ok cmdOut =>
    match split_json_and_errors cmdOut with
    | Except.error e => Except.error e
    | Except.ok (jsonData, _errorData) =>
      match env.unser jsonData with
      | Except.error msg => Except.error (PyExc.validationError msg)
      | Except.ok output => Except.ok ("success", RunOutput.success output)
  | SubprocOutcome.fileNotFound fname =>
    if fname == "fio" then
      Except.ok ("error", RunOutput.failure ⟨missingFioMsg⟩)
    else
      Except.ok ("error", RunOutput.failure ⟨env.tracebackText⟩)
  | SubprocOutcome.calledProcessError rc out =>
    match split_json_and_errors out with
    | Except.error e => Except.error e
    | Except.ok (_jsonData, errorData) =>
      Except.ok ("error", RunOutput.failure
        ⟨"fio failed with return code " ++ toString rc ++ ":\n" ++ errorData⟩)

/-- Embedding of run: the pair of its returned (or raised) result and the
final working-directory contents.  The finally block runs on every exit
path; when params.cleanup is truthy it unlinks the generated
configuration file and, for every job, the artifact named
job.name + ".0.0", with missing_ok=True. -/
def run {α : Type} (params : FioInput) (env : RunEnv α) (dir0 : List String) :
    Except PyExc (String × RunOutput α) × List String :=
  let dirBody := runBodyDir env dir0
  let dirFinal :=
    if pyTruthy params.cleanup then
      params.jobs.foldl (fun d job => pyUnlink (job.name ++ ".0.0") d)
        (pyUnlink "fio-input-tmp.fio" dirBody)
    else dirBody
  (runResult env, dirFinal)

/-! ## Helper lemmas -/

/-- The diagnostics buffer error_data accumulates for a list of consumed
lines: each line followed by one newline character. -/
def diagText (ls : List String) : String :=
  ls.foldl (fun a l => a ++ l ++ "\n") ""

theorem splitlinesAux_length (cs : List Char) :
    (∀ skip a0 acc0, (splitlinesAux skip cs (a0 :: acc0)).length ≤ cs.length + 1) ∧
    (∀ skip, (splitlinesAux skip cs []).length ≤ cs.length) := by
  induction cs with
  | nil =>
    constructor
    · intro skip a0 acc0; simp [splitlinesAux]
    · intro skip; simp [splitlinesAux]
  | cons c rest ih =>
    obtain ⟨ihA, ihB⟩ := ih
    constructor
    · intro skip a0 acc0
      simp only [splitlinesAux, List.length_cons]
      by_cases h1 : (skip && c == '\n') = true
      · simp only [h1, if_true]
        have h2 := ihA false a0 acc0; omega
      · by_cases hb : isLineBreak c = true
        · simp [h1, hb]
          have h2 := ihB (c == '\r'); omega
        · simp [h1, hb]
          have h2 := ihA false c (a0 :: acc0); omega
    · intro skip
      simp only [splitlinesAux, List.length_cons]
      by_cases h1 : (skip && c == '\n') = true
      · simp only [h1, if_true]
        have h2 := ihB false; omega
      · by_cases hb : isLineBreak c = true
        · simp [h1, hb]
          have h2 := ihB (c == '\r'); omega
        · simp [h1, hb]
          have h2 := ihA false c []; omega

theorem pySplitlines_length_le (s : String) :
    (pySplitlines s).length ≤ s.length :=
  (splitlinesAux_length s.data).2 false

theorem splitLoop_ok (lines : List String) (k : Nat) (d : JsonVal)
    (hk : jsonLoads (String.intercalate "\n" (lines.drop k)) = some d)
    (hfail : ∀ j, j < k → jsonLoads (String.intercalate "\n" (lines.drop j)) = none)
    (hklen : k < lines.length) :
    ∀ fuel i errData, i ≤ k → k < i + fuel →
      splitLoop lines fuel i errData =
        Except.ok (d, ((lines.drop i).take (k - i)).foldl
          (fun a l => a ++ l ++ "\n") errData) := by
  intro fuel
  induction fuel with
  | zero =>
    intro i errData hik hkf
    omega
  | succ fuel ih =>
    intro i errData hik hkf
    by_cases hi : i = k
    · subst hi
      simp only [splitLoop, hk, Nat.sub_self, List.take_zero, List.foldl_nil]
    · have hik2 : i < k := lt_of_le_of_ne hik hi
      have hlen : i < lines.length := lt_trans hik2 hklen
      simp only [splitLoop, hfail i hik2, List.getElem?_eq_getElem hlen]
      rw [ih (i + 1) (errData ++ lines[i] ++ "\n") (by omega) (by omega)]
      congr 1
      rw [List.drop_eq_getElem_cons hlen]
      have hki : k - i = (k - (i + 1)) + 1 := by omega
      rw [hki, List.take_succ_cons, List.foldl_cons]

theorem splitLoop_error (lines : List String)
    (h : ∀ j, jsonLoads (String.intercalate "\n" (lines.drop j)) = none) :
    ∀ fuel i errData, ∃ e, splitLoop lines fuel i errData = Except.error e := by
  intro fuel
  induction fuel with
  | zero => intro i errData; exact ⟨PyExc.unboundLocal, rfl⟩
  | succ fuel ih =>
    intro i errData
    cases hgi : lines[i]? with
    | none =>
      exact ⟨PyExc.indexError, by simp only [splitLoop, h i, hgi]⟩
    | some li =>
      obtain ⟨e, he⟩ := ih (i + 1) (errData ++ li ++ "\n")
      exact ⟨e, by simp only [splitLoop, h i, hgi]; exact he⟩

theorem jsonLoads_empty : jsonLoads "" = none := rfl

/-! ## Claims C1 and C2: the hybrid output parser -/

/-- Claim C1, counterexample.  The claim states that the diagnostics
buffer is the concatenation of the diagnostic lines each followed by its
original line terminator.  For the captured text "err\r\n2" the single
diagnostic line "err" has original terminator "\r\n", yet the parser
returns the buffer "err\n": the terminator is rewritten to a bare
newline, so the claim as stated is false. -/
theorem split_crlf_counterexample :
    split_json_and_errors "err\r\n2" = Except.ok (JsonVal.num "2", "err\n") ∧
      "err\n" ≠ "err\r\n" :=
  ⟨rfl, by decide⟩

/-- Claim C1, amended.  For every captured text whose first k lines each
start a suffix that does not parse as JSON and whose remaining lines
joined parse as one JSON document d, split_json_and_errors returns
exactly d together with a diagnostics buffer equal to the concatenation
of the k lines, each followed by one newline character (original
terminators are normalized to a bare newline). -/
theorem split_json_and_errors_ok (s : String) (k : Nat) (d : JsonVal)
    (hk : jsonLoads (String.intercalate "\n" ((pySplitlines s).drop k)) = some d)
    (hfail : ∀ j, j < k →
      jsonLoads (String.intercalate "\n" ((pySplitlines s).drop j)) = none) :
    split_json_and_errors s = Except.ok (d, diagText ((pySplitlines s).take k)) := by
  have hklen : k < (pySplitlines s).length := by
    by_contra hge
    rw [List.drop_eq_nil_iff.mpr (by omega)] at hk
    simp only [String.intercalate, jsonLoads_empty] at hk
    exact Option.noConfusion hk
  have hks : k < s.length := lt_of_lt_of_le hklen (pySplitlines_length_le s)
  have h := splitLoop_ok (pySplitlines s) k d hk hfail hklen s.length 0 ""
    (Nat.zero_le k) (by omega)
  simpa [split_json_and_errors, diagText] using h

/-- Claim C1, witness: the captured text "warn\n3" with one diagnostic
line followed by the JSON document 3. -/
theorem split_json_and_errors_ok_witness :
    split_json_and_errors "warn\n3" =
      Except.ok (JsonVal.num "3", diagText ((pySplitlines "warn\n3").take 1)) :=
  split_json_and_errors_ok "warn\n3" 1 (JsonVal.num "3") rfl
    (fun j hj => by
      match j with
      | 0 => rfl)

/-- Claim C2: for captured text in which no suffix of the line list
parses as JSON, split_json_and_errors produces no result value: it raises
(IndexError from indexing past the line list, or UnboundLocalError when
the loop completes without ever binding json_data), modelled as
Except.error — never an empty or stale success. -/
theorem split_json_and_errors_no_json_is_error (s : String)
    (h : ∀ j, jsonLoads (String.intercalate "\n" ((pySplitlines s).drop j)) = none) :
    ∃ e, split_json_and_errors s = Except.error e :=
  splitLoop_error (pySplitlines s) h s.length 0 ""

/-- Claim C2, witness: the captured text "boom" has no JSON suffix and
the parser signals an error. -/
theorem split_json_and_errors_no_json_is_error_witness :
    ∃ e, split_json_and_errors "boom" = Except.error e :=
  split_json_and_errors_no_json_is_error "boom" (fun j => by
    match j with
    | 0 => rfl
    | Nat.succ n =>
      rw [show (pySplitlines "boom").drop (n + 1) = [] from
        List.drop_eq_nil_iff.mpr (by
          have : pySplitlines "boom" = ["boom"] := rfl
          rw [this]; simp)]
      rfl)

/-! ## Claims C3, C4, C5: result classification of run -/

/-- The captured outputs for which the try body of run runs to a return
statement: on a zero exit the captured output must contain a parseable
JSON suffix and the parsed document must unserialize; on a non-zero exit
the captured output fed back through split_json_and_errors must contain a
parseable JSON suffix; a FileNotFoundError is always handled. -/
def GoodEnv {α : Type} (env : RunEnv α) : Prop :=
  match env.outcome with
  | SubprocOutcome.ok out =>
    ∃ v errBuf, split_json_and_errors out = Except.ok (v, errBuf) ∧
      ∃ o, env.unser v = Except.ok o
  | SubprocOutcome.calledProcessError _ out =>
    ∃ v errBuf, split_json_and_errors out = Except.ok (v, errBuf)
  | SubprocOutcome.fileNotFound _ => True

/-- Claim C3, counterexample.  The claim states that for every captured
subprocess output, run returns one of the two declared result variants
and never lets an exception escape.  With a zero exit status and captured
output "x" — which contains no parseable JSON suffix —
split_json_and_errors raises UnboundLocalError inside the try body;
neither except clause (FileNotFoundError, CalledProcessError) catches it,
so run raises instead of returning a variant. -/
theorem run_uncaught_exception_counterexample :
    (run ⟨[], none⟩
        ⟨SubprocOutcome.ok "x", [], fun _ => Except.ok (0 : Nat), ""⟩ []).1 =
      Except.error PyExc.unboundLocal := rfl

/-- Claim C3, amended.  Whenever the captured output is well-formed for
its exit path (GoodEnv: a parseable JSON suffix exists, and on the
success path the document also unserializes), run returns one of the two
declared variants — the tag is "success" or "error" and no exception
escapes.  On outputs outside GoodEnv the parse or validation exception
propagates uncaught, as the counterexample shows. -/
theorem run_two_variants_when_output_wellformed {α : Type} (params : FioInput)
    (env : RunEnv α) (dir0 : List String) (h : GoodEnv env) :
    ∃ res, (run params env dir0).1 = Except.ok res ∧
      (res.1 = "success" ∨ res.1 = "error") := by
  obtain ⟨outc, dirA, unser, tb⟩ := env
  cases outc with
  | ok cmdOut =>
    obtain ⟨v, errBuf, hsplit, o, hunser⟩ := h
    have hu : unser v = Except.ok o := hunser
    refine ⟨("success", RunOutput.success o), ?_, Or.inl rfl⟩
    simp only [run, runResult, hsplit, hu]
  | calledProcessError rc out =>
    obtain ⟨v, errBuf, hsplit⟩ := h
    refine ⟨("error", RunOutput.failure
      ⟨"fio failed with return code " ++ toString rc ++ ":\n" ++ errBuf⟩),
      ?_, Or.inr rfl⟩
    simp only [run, runResult, hsplit]
  | fileNotFound fname =>
    by_cases hf : (fname == "fio") = true
    · exact ⟨("error", RunOutput.failure ⟨missingFioMsg⟩),
        by simp only [run, runResult, hf, if_true], Or.inr rfl⟩
    · exact ⟨("error", RunOutput.failure ⟨tb⟩),
        by simp [run, runResult, hf], Or.inr rfl⟩

/-- Claim C3, witness: a FileNotFoundError outcome is always handled and
run returns a variant. -/
theorem run_two_variants_when_output_wellformed_witness :
    ∃ res, (@run Nat ⟨[], none⟩
        ⟨SubprocOutcome.fileNotFound "fio", [], fun _ => Except.ok 0, ""⟩ []).1 =
          Except.ok res ∧ (res.1 = "success" ∨ res.1 = "error") :=
  run_two_variants_when_output_wellformed ⟨[], none⟩
    ⟨SubprocOutcome.fileNotFound "fio", [], fun _ => Except.ok 0, ""⟩ []
    trivial

/-- Claim C4, counterexample.  The claim states that run produces an
Error result whenever the process exits non-zero.  With exit code 1 and
captured output "boom" — no suffix of which parses as JSON — the
re-parse inside the CalledProcessError handler raises IndexError, which
is uncaught, so run raises instead of producing the Error variant. -/
theorem run_nonzero_exit_raises_counterexample :
    (run ⟨[], none⟩
        ⟨SubprocOutcome.calledProcessError 1 "boom", [],
          fun _ => Except.ok (0 : Nat), ""⟩ []).1 =
      Except.error PyExc.indexError := rfl

/-- Claim C4, amended.  Whenever the process exits with a non-zero status
and the captured output does contain a parseable JSON suffix, run
produces an Error result whose message is the binary name err.cmd[0]
(the literal "fio"), then " failed with return code ", the exit code,
":", a newline, and the diagnostics buffer of split_json_and_errors run
over the captured output with the parsed JSON discarded; when no suffix
parses, the IndexError from the parser propagates instead. -/
theorem run_nonzero_exit_error_message {α : Type} (params : FioInput)
    (env : RunEnv α) (dir0 : List String) (rc : Int) (out : String)
    (d : JsonVal) (errText : String)
    (ho : env.outcome = SubprocOutcome.calledProcessError rc out)
    (hs : split_json_and_errors out = Except.ok (d, errText)) :
    (run params env dir0).1 = Except.ok ("error", RunOutput.failure
      ⟨"fio failed with return code " ++ toString rc ++ ":\n" ++ errText⟩) := by
  simp only [run, runResult, ho, hs]

/-- Claim C4, witness: exit code 1 with captured output "warn\n3" whose
suffix "3" parses; the message carries the diagnostic line. -/
theorem run_nonzero_exit_error_message_witness :
    (@run Nat ⟨[], none⟩
        ⟨SubprocOutcome.calledProcessError 1 "warn\n3", [],
          fun _ => Except.ok 0, ""⟩ []).1 =
      Except.ok ("error", RunOutput.failure
        ⟨"fio failed with return code 1:\nwarn\n"⟩) :=
  run_nonzero_exit_error_message ⟨[], none⟩
    ⟨SubprocOutcome.calledProcessError 1 "warn\n3", [], fun _ => Except.ok 0, ""⟩
    [] 1 "warn\n3" (JsonVal.num "3") "warn\n" rfl rfl

/-- Claim C5: when the subprocess step fails with FileNotFoundError, run
compares exc.filename with "fio": on a match it returns the Error variant
with the fixed install-recommendation message, and on any other missing
file name it returns the Error variant carrying format_exc() — the full
diagnostic trace, modelled by the environment's tracebackText. -/
theorem run_missing_executable_classification {α : Type} (params : FioInput)
    (fname : String) (dirA : List String) (unser : JsonVal → Except String α)
    (tb : String) (dir0 : List String) :
    (run params ⟨SubprocOutcome.fileNotFound fname, dirA, unser, tb⟩ dir0).1 =
      Except.ok ("error", RunOutput.failure
        ⟨if fname == "fio" then missingFioMsg else tb⟩) := by
  by_cases hf : (fname == "fio") = true
  · simp only [run, runResult, hf, if_true]
  · simp [run, runResult, hf]

/-! ## Claims C6 and C10: the finally block -/

theorem not_mem_pyUnlink_self (x : String) (d : List String) :
    x ∉ pyUnlink x d := by
  intro hc
  have := List.of_mem_filter hc
  simp at this

theorem not_mem_pyUnlink_of_not_mem {x : String} (y : String) {d : List String}
    (h : x ∉ d) : x ∉ pyUnlink y d :=
  fun hc => h (List.mem_of_mem_filter hc)

theorem not_mem_foldl_unlink {x : String} (names : List String)
    {d : List String} (h : x ∉ d) :
    x ∉ names.foldl (fun d n => pyUnlink n d) d := by
  induction names generalizing d with
  | nil => exact h
  | cons n rest ih => exact ih (not_mem_pyUnlink_of_not_mem n h)

theorem mem_names_not_mem_foldl_unlink {x : String} {names : List String}
    (d : List String) (h : x ∈ names) :
    x ∉ names.foldl (fun d n => pyUnlink n d) d := by
  induction names generalizing d with
  | nil => cases h
  | cons n rest ih =>
    rcases List.mem_cons.mp h with h1 | h2
    · subst h1
      exact not_mem_foldl_unlink rest (not_mem_pyUnlink_self x d)
    · exact ih (pyUnlink n d) h2

/-- Claim C6: for every invocation with cleanup requested, after run
completes — on the success path, a handled error path, or a fault, since
the finally block runs on every exit — the generated configuration file
fio-input-tmp.fio and, for every job in the request, the artifact named
job.name ++ ".0.0" are absent from the final working directory.  The
unlink calls use missing_ok=True, so deleting an absent artifact is not
an error: pyUnlink is total and run's result component never depends on
the directory contents. -/
theorem run_cleanup_removes_artifacts {α : Type} (params : FioInput)
    (env : RunEnv α) (dir0 : List String)
    (h : pyTruthy params.cleanup = true) :
    "fio-input-tmp.fio" ∉ (run params env dir0).2 ∧
      ∀ job ∈ params.jobs, (job.name ++ ".0.0") ∉ (run params env dir0).2 := by
  have hdir : (run params env dir0).2 =
      (params.jobs.map (fun job => job.name ++ ".0.0")).foldl
        (fun d n => pyUnlink n d)
        (pyUnlink "fio-input-tmp.fio" (runBodyDir env dir0)) := by
    simp only [run, h, if_true, List.foldl_map]
  constructor
  · rw [hdir]
    exact not_mem_foldl_unlink _ (not_mem_pyUnlink_self _ _)
  · intro job hjob
    rw [hdir]
    exact mem_names_not_mem_foldl_unlink _ (List.mem_map_of_mem _ hjob)

/-- Claim C6, witness: a cleanup=true request with one job named "job1",
a pre-populated directory and a missing-binary outcome; both the config
file and the artifact are absent afterwards. -/
theorem run_cleanup_removes_artifacts_witness :
    "fio-input-tmp.fio" ∉
        (@run Nat ⟨[⟨"job1", JobParams.allNone⟩], some true⟩
          ⟨SubprocOutcome.fileNotFound "fio", [], fun _ => Except.ok 0, ""⟩
          ["fio-input-tmp.fio", "job1.0.0", "keep.txt"]).2 ∧
      ∀ job ∈ ([⟨"job1", JobParams.allNone⟩] : List FioJob),
        (job.name ++ ".0.0") ∉
          (@run Nat ⟨[⟨"job1", JobParams.allNone⟩], some true⟩
            ⟨SubprocOutcome.fileNotFound "fio", [], fun _ => Except.ok 0, ""⟩
            ["fio-input-tmp.fio", "job1.0.0", "keep.txt"]).2 :=
  run_cleanup_removes_artifacts ⟨[⟨"job1", JobParams.allNone⟩], some true⟩
    ⟨SubprocOutcome.fileNotFound "fio", [], fun _ => Except.ok 0, ""⟩
    ["fio-input-tmp.fio", "job1.0.0", "keep.txt"] rfl

/-- Claim C10: with cleanup not requested (false, or the falsy None), the
finally block is a no-op: the final working directory is exactly the
directory as it stood when the try body finished, on every exit path —
run deletes nothing, so the configuration file and any job artifacts that
are present remain present. -/
theorem run_no_cleanup_deletes_nothing {α : Type} (params : FioInput)
    (env : RunEnv α) (dir0 : List String)
    (h : pyTruthy params.cleanup = false) :
    (run params env dir0).2 = runBodyDir env dir0 := by
  simp only [run, h, Bool.false_eq_true, if_false]

/-- Claim C10, witness: cleanup=false with the config file and artifact
present after the subprocess step; the directory is unchanged. -/
theorem run_no_cleanup_deletes_nothing_witness :
    (@run Nat ⟨[⟨"job1", JobParams.allNone⟩], some false⟩
        ⟨SubprocOutcome.ok "3", ["fio-input-tmp.fio", "job1.0.0"],
          fun _ => Except.ok 0, ""⟩ []).2 =
      runBodyDir
        ⟨SubprocOutcome.ok "3", ["fio-input-tmp.fio", "job1.0.0"],
          fun _ => Except.ok (0 : Nat), ""⟩ [] :=
  run_no_cleanup_deletes_nothing ⟨[⟨"job1", JobParams.allNone⟩], some false⟩
    ⟨SubprocOutcome.ok "3", ["fio-input-tmp.fio", "job1.0.0"],
      fun _ => Except.ok 0, ""⟩ [] rfl

/-! ## Claims C7, C8, C9: the configuration serializer -/

/-! ### Success-path lemmas for the store -/

theorem map_updOne_updOne (secs : Sections) (name : String)
    (f g : List (String × String) → List (String × String)) :
    (secs.map (updOne name f)).map (updOne name g) =
      secs.map (updOne name (fun c => g (f c))) := by
  rw [List.map_map]
  apply List.map_congr_left
  intro s hs
  by_cases h : (s.1 == name) = true
  · simp [updOne, Function.comp, h]
  · simp [updOne, Function.comp, h]

theorem map_updOne_of_any_false (secs : Sections) (name : String)
    (f : List (String × String) → List (String × String))
    (h : (secs.any fun s => s.1 == name) = false) :
    secs.map (updOne name f) = secs := by
  have hcong : secs.map (updOne name f) = secs.map (fun s => s) := by
    apply List.map_congr_left
    intro s hs
    have hne := List.any_eq_false.mp h s hs
    simp only [updOne]
    rw [if_neg hne]
  rw [hcong, List.map_id']

theorem foldl_cfgSetVal_sections_default (name : String)
    (hcond : (name == "DEFAULT" || name == "") = true)
    (kvs : List (String × String)) :
    ∀ st : CfgState,
      (kvs.foldl (fun st kv => cfgSetVal st name kv.1 kv.2) st).sections =
        st.sections := by
  induction kvs with
  | nil => intro st; rfl
  | cons kv rest ih =>
    intro st
    rw [List.foldl_cons, ih]
    simp only [cfgSetVal, hcond, if_true]

theorem foldl_cfgSetVal_sections (name : String)
    (hn1 : (name == "DEFAULT") = false) (hn2 : (name == "") = false)
    (kvs : List (String × String)) :
    ∀ st : CfgState,
      (kvs.foldl (fun st kv => cfgSetVal st name kv.1 kv.2) st).sections =
        st.sections.map (updOne name
          (fun c => kvs.foldl (fun c kv => setKeyVal c kv.1 kv.2) c)) := by
  have hcond : (name == "DEFAULT" || name == "") = false := by
    rw [hn1, hn2]
    rfl
  induction kvs with
  | nil =>
    intro st
    symm
    have hcong : st.sections.map (updOne name fun c =>
        List.foldl (fun c (kv : String × String) => setKeyVal c kv.1 kv.2)
          c []) =
        st.sections.map fun s => s := by
      apply List.map_congr_left
      intro s hs
      by_cases h : (s.1 == name) = true
      · simp only [updOne, if_pos h, List.foldl_nil]
        rw [← eq_of_beq h]
      · simp only [updOne, if_neg h]
    rw [hcong, List.map_id']
    rfl
  | cons kv rest ih =>
    intro st
    rw [List.foldl_cons, ih]
    have hsec : (cfgSetVal st name kv.1 kv.2).sections =
        st.sections.map (updOne name fun c => setKeyVal c kv.1 kv.2) := by
      simp [cfgSetVal, hcond, updOne]
    rw [hsec]
    exact map_updOne_updOne st.sections name _ _

theorem cfgSetItem_sections (st : CfgState) (name : String)
    (hn1 : (name == "DEFAULT") = false) :
    (cfgSetItem st name).sections = setSection st.sections name [] := by
  by_cases hany : (st.sections.any fun s => s.1 == name) = true
  · simp [cfgSetItem, setSection, hn1, hany]
  · have hany2 : (st.sections.any fun s => s.1 == name) = false :=
      Bool.not_eq_true _ ▸ Bool.eq_false_iff.mpr hany
    simp [cfgSetItem, setSection, hn1, hany2]

theorem storeJobPure_sections_default (st : CfgState) (job : FioJob)
    (hd : (job.name == "DEFAULT") = true) :
    (storeJobPure st job).sections = st.sections := by
  unfold storeJobPure
  rw [foldl_cfgSetVal_sections_default job.name (by rw [hd]; rfl)]
  simp [cfgSetItem, hd]

theorem storeJobPure_sections (st : CfgState) (job : FioJob)
    (hn1 : (job.name == "DEFAULT") = false) :
    (storeJobPure st job).sections =
      setSection st.sections job.name (jobKvs job) := by
  by_cases he : (job.name == "") = true
  · unfold storeJobPure
    rw [foldl_cfgSetVal_sections_default job.name (by rw [he]; simp)]
    rw [cfgSetItem_sections st job.name hn1]
    simp only [jobKvs, he, if_true]
  · have he2 : (job.name == "") = false :=
      Bool.not_eq_true _ ▸ Bool.eq_false_iff.mpr he
    unfold storeJobPure
    rw [foldl_cfgSetVal_sections job.name hn1 he2,
      cfgSetItem_sections st job.name hn1]
    unfold setSection
    by_cases hany : (st.sections.any fun s => s.1 == job.name) = true
    · simp only [hany, if_true]
      have hrepl : st.sections.map
          (fun s => if s.1 == job.name
            then (job.name, ([] : List (String × String))) else s) =
          st.sections.map (updOne job.name (fun _ => [])) := rfl
      rw [hrepl, map_updOne_updOne]
      apply List.map_congr_left
      intro s hs
      by_cases h : (s.1 == job.name) = true
      · simp only [updOne, if_pos h]
        simp only [jobKvs, he2, Bool.false_eq_true, if_false, storedParams]
      · simp only [updOne, if_neg h]
    · have hany2 : (st.sections.any fun s => s.1 == job.name) = false :=
        Bool.not_eq_true _ ▸ Bool.eq_false_iff.mpr hany
      simp only [hany2, Bool.false_eq_true, if_false, List.map_append]
      rw [map_updOne_of_any_false st.sections job.name _ hany2]
      congr 1
      simp only [List.map_cons, List.map_nil, updOne, beq_self_eq_true, if_true]
      simp only [jobKvs, he2, Bool.false_eq_true, if_false, storedParams]

theorem foldlM_cfgSet_ok (name : String) (kvs : List (String × String)) :
    ∀ (st st2 : CfgState),
      kvs.foldlM (fun st kv => cfgSet st name kv.1 kv.2) st = Except.ok st2 →
      st2 = kvs.foldl (fun st kv => cfgSetVal st name kv.1 kv.2) st := by
  induction kvs with
  | nil =>
    intro st st2 h
    rw [List.foldlM_nil] at h
    exact (Except.ok.inj h).symm
  | cons kv rest ih =>
    intro st st2 h
    rw [List.foldlM_cons] at h
    unfold cfgSet at h
    by_cases hc : (kv.2 != "" && !(interpolationSyntaxOk kv.2)) = true
    · rw [if_pos hc] at h
      exact absurd h (by simp [Bind.bind, Except.bind])
    · rw [if_neg hc] at h
      rw [List.foldl_cons]
      exact ih _ _ h

theorem storeJob_ok_eq (st st2 : CfgState) (job : FioJob)
    (h : storeJob st job = Except.ok st2) : st2 = storeJobPure st job :=
  foldlM_cfgSet_ok job.name (renderParams job.params) _ st2 h

theorem foldlM_storeJob_ok (jobs : List FioJob) :
    ∀ (s0 s1 : CfgState),
      jobs.foldlM storeJob s0 = Except.ok s1 →
      s1 = jobs.foldl storeJobPure s0 := by
  induction jobs with
  | nil =>
    intro s0 s1 h1
    rw [List.foldlM_nil] at h1
    exact (Except.ok.inj h1).symm
  | cons j rest ih =>
    intro s0 s1 h1
    rw [List.foldlM_cons] at h1
    cases hs : storeJob s0 j with
    | error e =>
      rw [hs] at h1
      exact absurd h1 (by simp [Bind.bind, Except.bind])
    | ok smid =>
      rw [hs] at h1
      obtain rfl : smid = storeJobPure s0 j := storeJob_ok_eq s0 smid j hs
      rw [List.foldl_cons]
      exact ih _ _ h1

theorem buildCfg_ok_eq (jobs : List FioJob) (st : CfgState)
    (h : buildCfg jobs = Except.ok st) :
    st = jobs.foldl storeJobPure ⟨[], []⟩ :=
  foldlM_storeJob_ok jobs _ _ h

theorem buildSections_append (l : List FioJob) (j : FioJob) :
    buildSections (l ++ [j]) =
      setSection (buildSections l) j.name (jobKvs j) := by
  simp [buildSections, List.foldl_append]

theorem buildCfgPure_sections (jobs : List FioJob) :
    (jobs.foldl storeJobPure ⟨[], []⟩).sections =
      buildSections (jobs.filter fun j => j.name != "DEFAULT") := by
  induction jobs using List.reverseRecOn with
  | nil => rfl
  | append_singleton l j ih =>
    rw [List.foldl_append, List.foldl_cons, List.foldl_nil, List.filter_append]
    by_cases hd : (j.name == "DEFAULT") = true
    · rw [storeJobPure_sections_default _ j hd, ih]
      have hfd : (j.name != "DEFAULT") = false := by simp [bne, hd]
      simp [List.filter_cons, hfd]
    · have hd2 : (j.name == "DEFAULT") = false :=
        Bool.not_eq_true _ ▸ Bool.eq_false_iff.mpr hd
      rw [storeJobPure_sections _ j hd2, ih]
      have hfd : (j.name != "DEFAULT") = true := by simp [bne, hd2]
      simp only [List.filter_cons, hfd, if_true, List.filter_nil]
      rw [buildSections_append]

/-! ### Claim C7 -/

/-- Claim C7, counterexample.  The claim asserts that every all-null job
yields a section consisting of the section header; a job named DEFAULT is
routed by ConfigParser.__setitem__ to the defaults store, which stays
empty, and write then emits nothing at all — no header. -/
theorem write_default_named_job_counterexample :
    FioInput.write_jobs_to_file ⟨[⟨"DEFAULT", JobParams.allNone⟩], none⟩ =
        Except.ok "" ∧
      ("" : String) ≠ "[DEFAULT]\n\n" :=
  ⟨rfl, by decide⟩

/-- Claim C7, amended.  A job whose parameters are all null contributes
no key=value pairs, and for every job name other than the default section
name DEFAULT, serializing a request holding only that job yields exactly
the section header line followed by the blank line ConfigParser.write
emits after each section — no key=value lines.  (A DEFAULT-named all-null
job populates nothing and produces empty output.) -/
theorem write_all_null_job_section_header_only (name : String)
    (hn : name ≠ "DEFAULT") :
    renderParams JobParams.allNone = [] ∧
      FioInput.write_jobs_to_file ⟨[⟨name, JobParams.allNone⟩], none⟩ =
        Except.ok ("[" ++ name ++ "]\n\n") := by
  have hb : (name == "DEFAULT") = false := by
    cases hx : name == "DEFAULT" with
    | false => rfl
    | true => exact absurd (eq_of_beq hx) hn
  refine ⟨rfl, ?_⟩
  have hr : renderParams JobParams.allNone = [] := rfl
  have hcfg : buildCfg [⟨name, JobParams.allNone⟩] =
      Except.ok ⟨[], [(name, [])]⟩ := by
    simp [buildCfg, storeJob, hr, cfgSetItem, hb, pure, Except.pure, Bind.bind, Except.bind]
  show (buildCfg [⟨name, JobParams.allNone⟩]).map cfgWriteText =
    Except.ok ("[" ++ name ++ "]\n\n")
  rw [hcfg]
  show Except.ok (cfgWriteText ⟨[], [(name, [])]⟩) =
    Except.ok ("[" ++ name ++ "]\n\n")
  congr 1
  show "" ++ ("" ++ ("[" ++ name ++ "]\n" ++ String.join [] ++ "\n")) =
    "[" ++ name ++ "]\n\n"
  have hj : String.join ([] : List String) = "" := rfl
  rw [hj, String.empty_append, String.empty_append, String.append_empty,
    String.append_assoc, String.append_assoc, ← String.append_assoc]
  rfl

/-- Claim C7, witness: the all-null job named global. -/
theorem write_all_null_job_section_header_only_witness :
    renderParams JobParams.allNone = [] ∧
      FioInput.write_jobs_to_file ⟨[⟨"global", JobParams.allNone⟩], none⟩ =
        Except.ok ("[" ++ "global" ++ "]\n\n") :=
  write_all_null_job_section_header_only "global" (by decide)

/-! ### Claim C8 -/

/-- Claim C8, counterexample.  The claim asserts every set boolean
parameter is rendered as a digit; in a job with stonewall set to true and
the schema-valid size value 20 percent, the store's interpolation check
rejects the size value — processed before stonewall in field order — and
write_jobs_to_file raises ValueError: nothing at all is rendered for the
boolean. -/
theorem write_bool_param_percent_counterexample :
    (⟨none, none, none, none, none, none, none, none, none, none,
      none, none, none, none, none, none, none, none, none, none,
      some "20%", none, none, none, none, none, none, none,
      some true⟩ : JobParams).stonewall = some true ∧
    FioInput.write_jobs_to_file
        ⟨[⟨"job1",
          ⟨none, none, none, none, none, none, none, none, none, none,
           none, none, none, none, none, none, none, none, none, none,
           some "20%", none, none, none, none, none, none, none,
           some true⟩⟩], none⟩ =
      Except.error (CfgError.interpolationSyntaxError "20%") :=
  ⟨rfl, rfl⟩

/-- Claim C8, amended.  For every job with a boolean parameter set, the
value the serializer computes for that parameter is the literal digit 1
for true and 0 for false — str(int(value)), never a language boolean
literal — and that digit always passes the store's interpolation syntax
check, so serialization of the boolean itself never raises; a raise can
only be caused by another parameter's value, in which case nothing is
written.  One implication per boolean field of JobParams, for an
arbitrary parameter record. -/
theorem write_bool_params_as_digits (p : JobParams) (b : Bool) :
    ((p.time_based = some b →
      ("time_based", if b then "1" else "0") ∈ renderParams p) ∧
    (p.create_on_open = some b →
      ("create_on_open", if b then "1" else "0") ∈ renderParams p) ∧
    (p.pre_read = some b →
      ("pre_read", if b then "1" else "0") ∈ renderParams p) ∧
    (p.unlink = some b →
      ("unlink", if b then "1" else "0") ∈ renderParams p) ∧
    (p.unlink_each_loop = some b →
      ("unlink_each_loop", if b then "1" else "0") ∈ renderParams p) ∧
    (p.direct = some b →
      ("direct", if b then "1" else "0") ∈ renderParams p) ∧
    (p.buffered = some b →
      ("buffered", if b then "1" else "0") ∈ renderParams p) ∧
    (p.stonewall = some b →
      ("stonewall", if b then "1" else "0") ∈ renderParams p)) ∧
    interpolationSyntaxOk (if b then "1" else "0") = true := by
  constructor
  · refine ⟨?_, ?_, ?_, ?_, ?_, ?_, ?_, ?_⟩ <;> intro h <;>
      refine List.mem_filterMap.mpr
        ⟨(_, PyVal.pyBool b), ?_, by cases b <;> rfl⟩ <;>
      simp [JobParams.asdict, h, optVal]
  · cases b <;> rfl

/-- Claim C8, witness: a record with all eight boolean fields set (six
true, two false) computes the corresponding digits, which the syntax
check accepts. -/
theorem write_bool_params_as_digits_witness :
    ((("time_based", "1") ∈ renderParams
      ⟨none, none, none, none, some true, none, none, none, none, none,
       none, some true, some true, some true, some true, some true,
       some false, none, none, none, none, none, none, none, none, none,
       none, none, some false⟩) ∧
    (("buffered", "0") ∈ renderParams
      ⟨none, none, none, none, some true, none, none, none, none, none,
       none, some true, some true, some true, some true, some true,
       some false, none, none, none, none, none, none, none, none, none,
       none, none, some false⟩) ∧
    (("stonewall", "0") ∈ renderParams
      ⟨none, none, none, none, some true, none, none, none, none, none,
       none, some true, some true, some true, some true, some true,
       some false, none, none, none, none, none, none, none, none, none,
       none, none, some false⟩)) ∧
    interpolationSyntaxOk "1" = true :=
  ⟨⟨(write_bool_params_as_digits _ true).1.1 rfl,
    (write_bool_params_as_digits _ false).1.2.2.2.2.2.2.1 rfl,
    (write_bool_params_as_digits _ false).1.2.2.2.2.2.2.2 rfl⟩,
   (write_bool_params_as_digits JobParams.allNone true).2⟩

/-! ### Claim C9: lemmas on the section-list shape -/

theorem find?_map_replace_eq (secs : Sections) (n : String)
    (kvs : List (String × String))
    (hany : (secs.any fun s => s.1 == n) = true) :
    ((secs.map fun s => if s.1 == n then (n, kvs) else s).find?
      (fun s => s.1 == n)) = some (n, kvs) := by
  induction secs with
  | nil => simp at hany
  | cons s rest ih =>
    rw [List.map_cons]
    cases h : (s.1 == n) with
    | true =>
      rw [if_pos (rfl : (true : Bool) = true), List.find?_cons]
      simp only [beq_self_eq_true]
    | false =>
      have hany2 : (rest.any fun s => s.1 == n) = true := by
        simpa [List.any_cons, h] using hany
      rw [if_neg Bool.false_ne_true, List.find?_cons]
      simp only [h]
      exact ih hany2

theorem find?_map_replace_ne (secs : Sections) (n : String)
    (kvs : List (String × String)) (m : String) (hm : m ≠ n) :
    ((secs.map fun s => if s.1 == n then (n, kvs) else s).find?
      (fun s => s.1 == m)) = secs.find? (fun s => s.1 == m) := by
  induction secs with
  | nil => rfl
  | cons s rest ih =>
    rw [List.map_cons]
    cases h : (s.1 == n) with
    | true =>
      have hs : s.1 = n := eq_of_beq h
      have hnm : ((n : String) == m) = false := by
        cases hx : ((n : String) == m) with
        | false => rfl
        | true => exact absurd (eq_of_beq hx) fun he => hm he.symm
      have hsm : (s.1 == m) = false := by rw [hs]; exact hnm
      rw [if_pos (rfl : (true : Bool) = true), List.find?_cons, List.find?_cons]
      simp only [hnm, hsm]
      exact ih
    | false =>
      rw [if_neg Bool.false_ne_true, List.find?_cons, List.find?_cons]
      cases hp : (s.1 == m) with
      | true => simp only [hp]
      | false =>
        simp only [hp]
        exact ih

theorem find?_setSection (secs : Sections) (n : String)
    (kvs : List (String × String)) (m : String) :
    (setSection secs n kvs).find? (fun s => s.1 == m) =
      if m = n then some (n, kvs) else secs.find? (fun s => s.1 == m) := by
  unfold setSection
  by_cases hany : (secs.any fun s => s.1 == n) = true
  · simp only [hany, if_true]
    by_cases hm : m = n
    · subst hm
      rw [find?_map_replace_eq secs m kvs hany]
      simp
    · rw [find?_map_replace_ne secs n kvs m hm]
      simp [hm]
  · have hany2 : (secs.any fun s => s.1 == n) = false :=
      Bool.not_eq_true _ ▸ Bool.eq_false_iff.mpr hany
    simp only [hany2, Bool.false_eq_true, if_false, List.find?_append]
    have hnone : secs.find? (fun s => s.1 == n) = none :=
      List.find?_eq_none.mpr (fun x hx hpx =>
        (List.any_eq_false.mp hany2 x hx) hpx)
    by_cases hm : m = n
    · subst hm
      simp [hnone]
    · have hnm : ((n : String) == m) = false := by
        cases hx : ((n : String) == m) with
        | false => rfl
        | true => exact absurd (eq_of_beq hx) fun he => hm he.symm
      simp [hnm, hm]

theorem mapfst_setSection (secs : Sections) (n : String)
    (kvs : List (String × String)) :
    (setSection secs n kvs).map Prod.fst =
      if secs.any (fun s => s.1 == n) then secs.map Prod.fst
      else secs.map Prod.fst ++ [n] := by
  unfold setSection
  by_cases hany : (secs.any fun s => s.1 == n) = true
  · simp only [hany, if_true, List.map_map]
    apply List.map_congr_left
    intro s hs
    by_cases h : (s.1 == n) = true
    · simp only [Function.comp_apply, if_pos h]
      exact (eq_of_beq h).symm
    · simp only [Function.comp_apply, if_neg h]
  · have hany2 : (secs.any fun s => s.1 == n) = false :=
      Bool.not_eq_true _ ▸ Bool.eq_false_iff.mpr hany
    simp [hany2]

theorem nodup_mapfst_buildSections (jobs : List FioJob) :
    ((buildSections jobs).map Prod.fst).Nodup := by
  induction jobs using List.reverseRecOn with
  | nil => simp [buildSections]
  | append_singleton l j ih =>
    rw [buildSections_append, mapfst_setSection]
    by_cases hany : ((buildSections l).any fun s => s.1 == j.name) = true
    · simpa [hany] using ih
    · have hany2 : ((buildSections l).any fun s => s.1 == j.name) = false :=
        Bool.not_eq_true _ ▸ Bool.eq_false_iff.mpr hany
      simp only [hany2, Bool.false_eq_true, if_false]
      rw [List.nodup_append]
      refine ⟨ih, List.nodup_singleton _, ?_⟩
      intro x hx hxj
      obtain ⟨s, hs, rfl⟩ := List.mem_map.mp hx
      have hxj2 : s.1 = j.name := by simpa using hxj
      have hfalse := List.any_eq_false.mp hany2 s hs
      rw [hxj2] at hfalse
      exact hfalse (by simp)

theorem find?_buildSections (jobs : List FioJob) (n : String) :
    (buildSections jobs).find? (fun s => s.1 == n) =
      ((jobs.filter fun j => j.name == n).getLast?).map
        (fun j => (n, jobKvs j)) := by
  induction jobs using List.reverseRecOn with
  | nil => rfl
  | append_singleton l j ih =>
    rw [buildSections_append, find?_setSection, List.filter_append]
    by_cases hj : (j.name == n) = true
    · have hjn : j.name = n := eq_of_beq hj
      simp [hj, hjn, List.getLast?_concat]
    · have hjn : ¬(n = j.name) := fun he => by
        simp [he] at hj
      simp [hj, hjn, ih]

/-- Claim C9, counterexample.  The claim asserts that a request with two
or more same-named jobs raises no error; with two jobs named "a" whose
second carries the schema-valid size value "20%", the store's
interpolation check raises ValueError instead of emitting any section. -/
theorem write_duplicate_names_percent_counterexample :
    FioInput.write_jobs_to_file
        ⟨[⟨"a", JobParams.allNone⟩,
          ⟨"a",
           ⟨none, none, none, none, none, none, none, none, none, none,
            none, none, none, none, none, none, none, none, none, none,
            some "20%", none, none, none, none, none, none, none,
            none⟩⟩], none⟩ =
      Except.error (CfgError.interpolationSyntaxError "20%") := rfl

/-- Claim C9 (implicit), amended.  When serialization succeeds (no
parameter value is rejected by the interpolation syntax check — a stray
percent raises ValueError regardless of duplication), the emitted
ordinary sections have pairwise distinct names, and the section under any
ordinary name n (not DEFAULT, which routes to the defaults store, and not
the empty name, whose values also land in the defaults store) holds
exactly the stored parameters of the last job named n in the request:
ConfigParser routes a duplicate name to the existing section, clearing
and refilling it in place — one section per name, not per list entry, and
duplicate names by themselves raise nothing. -/
theorem write_duplicate_job_names_single_section_last_wins
    (jobs : List FioJob) (n : String) (st : CfgState)
    (hn : n ≠ "DEFAULT") (hne : n ≠ "")
    (hok : buildCfg jobs = Except.ok st) :
    (st.sections.map Prod.fst).Nodup ∧
      st.sections.find? (fun s => s.1 == n) =
        ((jobs.filter fun j => j.name == n).getLast?).map
          (fun j => (n, storedParams j.params)) := by
  obtain rfl : st = jobs.foldl storeJobPure ⟨[], []⟩ := buildCfg_ok_eq jobs st hok
  rw [buildCfgPure_sections]
  refine ⟨nodup_mapfst_buildSections _, ?_⟩
  rw [find?_buildSections]
  have hff : ((jobs.filter fun j => j.name != "DEFAULT").filter
      fun j => j.name == n) = jobs.filter fun j => j.name == n := by
    rw [List.filter_filter]
    apply List.filter_congr
    intro j hj
    by_cases h : (j.name == n) = true
    · have hjn : j.name = n := eq_of_beq h
      simp [h, hjn, bne, hn]
    · simp [h]
  rw [hff]
  cases hl : (jobs.filter fun j => j.name == n).getLast? with
  | none => rfl
  | some j0 =>
    have hmem : j0 ∈ jobs.filter fun j => j.name == n :=
      List.mem_of_getLast?_eq_some hl
    have hname : j0.name = n := eq_of_beq (List.mem_filter.mp hmem).2
    have hkv : jobKvs j0 = storedParams j0.params := by
      simp [jobKvs, hname, hne]
    simp [hkv]

/-- Claim C9, witness: two jobs named "a", the second with stonewall set;
the resulting state has one section named "a" holding the second job's
stored parameters. -/
theorem write_duplicate_job_names_single_section_last_wins_witness :
    (((⟨[], [("a", [("stonewall", "1")])]⟩ : CfgState).sections.map
        Prod.fst).Nodup) ∧
      (⟨[], [("a", [("stonewall", "1")])]⟩ : CfgState).sections.find?
          (fun s => s.1 == "a") =
        ((([⟨"a", JobParams.allNone⟩,
            ⟨"a",
             ⟨none, none, none, none, none, none, none, none, none, none,
              none, none, none, none, none, none, none, none, none, none,
              none, none, none, none, none, none, none, none,
              some true⟩⟩] : List FioJob).filter
            fun j => j.name == "a").getLast?).map
          (fun j => ("a", storedParams j.params)) :=
  write_duplicate_job_names_single_section_last_wins
    [⟨"a", JobParams.allNone⟩,
     ⟨"a",
      ⟨none, none, none, none, none, none, none, none, none, none,
       none, none, none, none, none, none, none, none, none, none,
       none, none, none, none, none, none, none, none,
       some true⟩⟩] "a" ⟨[], [("a", [("stonewall", "1")])]⟩
    (by decide) (by decide) rfl

end FioPlugin
